import Mathlib

/-!
Shallow embedding of `rtfm/rfccache.py` (RFC index cache).

Strings are modelled as Lean `String`s: the Python source decodes every
description to text up front, and all inputs are assumed to be valid text.
Each element of a `List String` handed to `RFCIndex.load` stands for one
physical line of the index file, as produced by iterating the file object,
so a line contains no interior newline character.  The two regular
expressions of the source (`RE_RFC_INDEX_LINE` and `RE_RFC_DESCRIPTION`)
are modelled by explicit functions that implement Python's leftmost,
greedy, backtracking match semantics on such inputs.  External effects
(HTTP fetches, file writes, the whoosh search store) are passed in as
explicit parameters, mirroring the data the Python code receives from
those collaborators.
-/

/-- Python whitespace, as stripped by `str.strip` / `str.rstrip`. -/
def isPySpace (c : Char) : Bool :=
  c == ' ' || c == '\t' || c == '\n' || c == '\r' || c == '\x0b' || c == '\x0c'

/-- `str.rstrip()` on a list of characters. -/
def pyRstripList (cs : List Char) : List Char :=
  (cs.reverse.dropWhile isPySpace).reverse

/-- `str.rstrip()` with no argument. -/
def pyRstrip (s : String) : String :=
  String.mk (pyRstripList s.toList)

/-- `str.strip()` on a list of characters. -/
def pyStripList (cs : List Char) : List Char :=
  pyRstripList (cs.dropWhile isPySpace)

/-- `str.strip()` with no argument. -/
def pyStrip (s : String) : String :=
  String.mk (pyStripList s.toList)

/-- `str.startswith(pre)`. -/
def pyStartsWith (s pre : String) : Bool :=
  s.toList.take pre.toList.length == pre.toList

/-- `str.split(sep)` with a one-character separator, Python semantics:
`"".split(sep) == ['']` and a trailing separator yields a trailing `''`. -/
def splitOnChar (sep : Char) : List Char → List (List Char)
  | [] => [[]]
  | c :: rest =>
    let r := splitOnChar sep rest
    if c = sep then [] :: r
    else
      match r with
      | h :: t => (c :: h) :: t
      | [] => [[c]]

/-- `str.split(':', 1)`: split at the first colon only; `none` when the
string has no colon (in which case the tuple unpacking in the source
raises `ValueError`, which the flag parser swallows). -/
def splitFirstColon : List Char → Option (List Char × List Char)
  | [] => none
  | c :: rest =>
    if c = ':' then some ([], rest)
    else (splitFirstColon rest).map (fun p => (c :: p.1, p.2))

/-- Digits-to-number conversion used for `int(m.group(1))`. -/
def natOfDigits (cs : List Char) : Nat :=
  cs.foldl (fun a c => a * 10 + (c.toNat - 48)) 0

/-- The fixed always-excluded RFC numbers (`RFC_SKIPPED` in the source). -/
def RFC_SKIPPED : List Nat := [8, 9, 51, 418, 530, 598]

/-- `CACHE_COMMIT_INTERVAL` in the source. -/
def CACHE_COMMIT_INTERVAL : Nat := 50

/-- Model of `re.match(RE_RFC_INDEX_LINE, line)` for the pattern
`^(\d+)\s*(.+)$`, returning `(int(group(1)), group(2))`.

Greedy backtracking: `\d+` takes the maximal digit prefix, `\s*` the
maximal following whitespace run, and `.+` must be non-empty, so the
engine backtracks by one character when the remainder would be empty
(a line of only digits matches with the last digit as group 2; a line of
digits followed only by whitespace matches with the last whitespace
character as group 2). -/
def matchIndexLine (line : String) : Option (Nat × String) :=
  let cs := line.toList
  let d := cs.takeWhile Char.isDigit
  let rest := cs.drop d.length
  if d.isEmpty then none
  else if rest.isEmpty then
    match d.reverse with
    | la :: c2 :: r => some (natOfDigits ((c2 :: r).reverse), String.mk [la])
    | _ => none
  else
    let r2 := rest.dropWhile isPySpace
    if r2.isEmpty then
      match rest.reverse with
      | la :: _ => some (natOfDigits d, String.mk [la])
      | _ => none
    else some (natOfDigits d, String.mk r2)

/-- The tail of `RE_RFC_DESCRIPTION` after the title group: a literal
space, then `(?P<date>[A-Z][a-z]+ \d+)`, then `\. `, then
`(?P<flags>\(.*\))` anchored at the end of the string.  Returns the date
group and the flags group. -/
def descTailMatch (cs : List Char) : Option (String × String) :=
  match cs with
  | ' ' :: c :: rest =>
    if c.isUpper then
      let lows := rest.takeWhile Char.isLower
      if lows.isEmpty then none
      else
        match rest.drop lows.length with
        | ' ' :: r4 =>
          let digs := r4.takeWhile Char.isDigit
          if digs.isEmpty then none
          else
            match r4.drop digs.length with
            | '.' :: ' ' :: '(' :: r6 =>
              match r6.reverse with
              | ')' :: _ => some (String.mk ([c] ++ lows ++ [' '] ++ digs),
                                  String.mk ('(' :: r6))
              | _ => none
            | _ => none
        | _ => none
    else none
  | _ => none

/-- Model of `RE_RFC_DESCRIPTION.match`, the pattern
`^(?P<title>.*\.) (?P<date>[A-Z][a-z]+ \d+)\. (?P<flags>\(.*\))$`.
The greedy `.*\.` makes the engine pick the rightmost title split whose
remainder matches the rest of the pattern, so candidate split points are
tried from the longest prefix down.  Note the title group includes the
terminating period, since `\.` sits inside the group. -/
def matchDescription (s : String) : Option (String × String × String) :=
  let cs := s.toList
  (List.range (cs.length + 1)).reverse.findSome? (fun i =>
    let pre := cs.take i
    match pre.reverse with
    | '.' :: _ =>
      match descTailMatch (cs.drop i) with
      | some (d, f) => some (String.mk pre, d, f)
      | none => none
    | _ => none)

/-- Full English month names recognised by `strptime`'s `%B` directive.
`%B` is case-insensitive, but the description regex only ever produces a
capital letter followed by lowercase letters, so on every reachable input
matching the canonical capitalised names is equivalent. -/
def monthOfName (s : String) : Option Nat :=
  if s = "January" then some 1
  else if s = "February" then some 2
  else if s = "March" then some 3
  else if s = "April" then some 4
  else if s = "May" then some 5
  else if s = "June" then some 6
  else if s = "July" then some 7
  else if s = "August" then some 8
  else if s = "September" then some 9
  else if s = "October" then some 10
  else if s = "November" then some 11
  else if s = "December" then some 12
  else none

/-- Model of `datetime.strptime(date, '%B %Y').date()` on a date group
produced by the description regex (month word, one space, digit run).
`%B` must be a full month name and `%Y` matches exactly four digits with
year at least 1; any other input raises `ValueError` (`none` here).  The
resulting day is always 1, so a date is represented as (month, year). -/
def parseMonthYear (d : String) : Option (Nat × Nat) :=
  match splitOnChar ' ' d.toList with
  | [name, digits] =>
    match monthOfName (String.mk name) with
    | some m =>
      if digits.length = 4 ∧ digits.all Char.isDigit ∧ 1 ≤ natOfDigits digits then
        some (m, natOfDigits digits)
      else none
    | none => none
  | _ => none

/-- Python dict assignment `flags[key] = value`: replace in place when the
key exists, otherwise append (insertion order preserved). -/
def insertFlag (flags : List (String × String)) (k v : String) :
    List (String × String) :=
  if flags.any (fun p => p.1 == k) then
    flags.map (fun p => if p.1 == k then (k, v) else p)
  else flags ++ [(k, v)]

/-- `RFCCacheEntry.__parse_flags__`: strip the flags group, split on `)`,
left-strip each fragment of spaces and `(`, skip fragments that are blank
after stripping, split each remaining fragment at the first `:` into a
stripped key/value pair (a fragment without a colon is silently
discarded). -/
def parseFlags (value : String) : List (String × String) :=
  (splitOnChar ')' (pyStrip value).toList).foldl
    (fun flags v0 =>
      let v := v0.dropWhile (fun c => c == ' ' || c == '(')
      if pyStripList v = [] then flags
      else
        match splitFirstColon v with
        | none => flags
        | some (k, val) =>
            insertFlag flags (String.mk (pyStripList k)) (String.mk (pyStripList val)))
    []

/-- One RFC cache entry (`RFCCacheEntry`).  The date is `(month, year)`;
the source's `datetime.date` always has day 1. -/
structure RFCCacheEntry where
  number : Nat
  description : String
  title : String
  date : Option (Nat × Nat)
  flags : List (String × String)
deriving Repr, DecidableEq

/-- `RFCCacheEntry.__init__`: keep the raw description; when the
description regex matches, take the title group, parse the date with
`strptime('%B %Y')` and parse the flags group.  A non-matching
description keeps the sentinel title, no date and empty flags.  The one
failure mode is `strptime` raising `ValueError` on a matched date group
whose month word is not a month name or whose year is not four digits;
that exception is not an `RFCCacheError`, so it escapes the constructor
(and the `except RFCCacheError` around the `append` in `load`). -/
def mkRFCCacheEntry (number : Nat) (description : String) :
    Except Unit RFCCacheEntry :=
  match matchDescription description with
  | none => .ok ⟨number, description, "title not parsed", none, []⟩
  | some (t, d, f) =>
    match parseMonthYear d with
    | none => .error ()
    | some my => .ok ⟨number, description, t, some my, parseFlags f⟩

/-- The two exceptions that can escape `RFCIndex.load`'s parse loop:
the explicit `RFCCacheError('Unsupported file format.')`, and the
`ValueError` from `strptime` inside `RFCCacheEntry.__init__` (which the
narrow `except RFCCacheError: pass` does not catch). -/
inductive LoadError
  | unsupportedFormat
  | valueError
deriving Repr, DecidableEq

/-- The loop state of `RFCIndex.load`: the entries appended to `self` so
far, the header-block toggle, and the currently accumulating record's
number and text (`rfc`/`text` in the source; `rfc = none` models Python
`None`). -/
structure LoadState where
  entries : List RFCCacheEntry
  header : Bool
  rfc : Option Nat
  text : Option String
deriving Repr, DecidableEq

def initLoadState : LoadState := ⟨[], false, none, none⟩

/-- Finalizing the previously accumulated record when a new numbered line
is seen: `if rfc is not None and rfc not in RFC_SKIPPED: self.append(...)`.
Returns the updated entry list, or the `ValueError` escaping from
`RFCCacheEntry.__init__`. -/
def finalizePrev (s : LoadState) : Except LoadError (List RFCCacheEntry) :=
  match s.rfc with
  | none => .ok s.entries
  | some r =>
    if r ∈ RFC_SKIPPED then .ok s.entries
    else
      match mkRFCCacheEntry r (s.text.getD "") with
      | .ok e => .ok (s.entries ++ [e])
      | .error _ => .error .valueError

/-- One iteration of the `for line in f` loop in `RFCIndex.load`
(`line = line.rstrip()` first; `line.strip()` in the source acts on the
already-rstripped line). -/
def loadStep (s : LoadState) (rawLine : String) : Except LoadError LoadState :=
  if pyRstrip rawLine = "" then .ok s
  else if pyStartsWith (pyRstrip rawLine) "~~~" then .ok { s with header := !s.header }
  else if s.header = true ∨ pyStrip (pyRstrip rawLine) = "RFC INDEX"
      ∨ pyStrip (pyRstrip rawLine) = "---------" then
    .ok s
  else
    match matchIndexLine (pyRstrip rawLine) with
    | some (n, t) =>
      match finalizePrev s with
      | .error e => .error e
      | .ok es =>
        if t = "Not Issued." then .ok ⟨es, s.header, none, none⟩
        else .ok ⟨es, s.header, some n, some t⟩
    | none =>
      match s.rfc with
      | none => .error .unsupportedFormat
      | some r =>
        if r = 0 then .error .unsupportedFormat
        else .ok { s with text := some ((s.text.getD "") ++ " " ++ pyStrip (pyRstrip rawLine)) }

/-- The whole parse loop.  On an exception the in-memory list keeps the
entries appended before the failing line (the source mutates `self`
incrementally), so the result is the final content of the store paired
with the escaped exception, if any.  Note there is no finalization of the
still-accumulating record when the line stream ends: the loop only
appends a record when a later numbered line is seen. -/
def loadLines : LoadState → List String → List RFCCacheEntry × Option LoadError
  | s, [] => (s.entries, none)
  | s, l :: rest =>
    match loadStep s l with
    | .ok s' => loadLines s' rest
    | .error e => (s.entries, some e)

/-- Running the loop over a prefix of lines without an exception, used to
talk about intermediate loop states. -/
def processLines : LoadState → List String → Except LoadError LoadState
  | s, [] => .ok s
  | s, l :: rest =>
    match loadStep s l with
    | .ok s' => processLines s' rest
    | .error e => .error e

/-- `RFCIndex.load`: `del self[0:len(self)]` clears the store before the
parse, so the prior content of the store is discarded unconditionally and
the result depends only on the file's lines. -/
def RFCIndex.load (prior : List RFCCacheEntry) (lines : List String) :
    List RFCCacheEntry × Option LoadError :=
  let _ := prior
  loadLines initLoadState lines

/-- The argument of `get_by_number`, which the source passes through
`int(...)`: either something that converts to an integer, or a value for
which `int` raises (`ValueError`/`TypeError`). -/
inductive PyArg
  | int (n : Int)
  | nonNumeric
deriving Repr, DecidableEq

def pyToInt : PyArg → Option Int
  | .int n => some n
  | .nonNumeric => none

/-- The distinct `RFCCacheError` conditions raised by `get_by_number`,
carrying the numbers interpolated into the corresponding message. -/
inductive GetByNumberError
  | noRFCsLoaded
  | invalidNumber
  | notAvailable (n : Nat)
  | notYetCached (requested latest : Nat)
  | notFoundLocally (n : Nat)
deriving Repr, DecidableEq

/-- `self[-1].number`: the number of the last entry of the store. -/
def lastNumber (entries : List RFCCacheEntry) : Nat :=
  match entries.getLast? with
  | some e => e.number
  | none => 0

/-- `RFCIndex.get_by_number`: emptiness check first, then `int`
conversion and positivity, then the excluded set, then the
greater-than-latest check against `self[-1]`, then a linear scan. -/
def get_by_number (entries : List RFCCacheEntry) (arg : PyArg) :
    Except GetByNumberError RFCCacheEntry :=
  if entries = [] then .error .noRFCsLoaded
  else
    match pyToInt arg with
    | none => .error .invalidNumber
    | some z =>
      if z < 1 then .error .invalidNumber
      else if z.toNat ∈ RFC_SKIPPED then .error (.notAvailable z.toNat)
      else if lastNumber entries < z.toNat then
        .error (.notYetCached z.toNat (lastNumber entries))
      else
        match entries.find? (fun e => e.number == z.toNat) with
        | some e => .ok e
        | none => .error (.notFoundLocally z.toNat)

/-- The transport result of `requests.get(INDEX_URL)`: the status code,
and the body already split into physical lines as later read back from
the written index file. -/
structure FetchResult where
  status_code : Nat
  content : List String
deriving Repr, DecidableEq

inductive UpdateError
  | downloadFailed (status : Nat)
  | writeFailed
  | loadFailed (e : LoadError)
deriving Repr, DecidableEq

/-- `RFCIndex.update`: check the transport status, then write the file
(`writeOk = false` models the write raising; the source catches only
`OSError`, a Python 2 file write raises `IOError` which then escapes
uncaught, but either way an exception is raised), then call `load()`.
Both failure paths happen before any mutation of the in-memory store. -/
def RFCIndex.update (store : List RFCCacheEntry) (res : FetchResult)
    (writeOk : Bool) : List RFCCacheEntry × Option UpdateError :=
  if res.status_code ≠ 200 then (store, some (.downloadFailed res.status_code))
  else if writeOk = false then (store, some .writeFailed)
  else
    let r := RFCIndex.load store res.content
    (r.1, r.2.map .loadFailed)

/-- Observable events of the `update_missing_indexes` write batch. -/
inductive BatchEvent
  | upsert (number : Nat)
  | commit
deriving Repr, DecidableEq

/-- The `for rfc in [...]` loop of `update_missing_indexes`: after each
`update_document` the counter is compared with `CACHE_COMMIT_INTERVAL`;
on `done >= 50` the writer commits and the counter resets to 0, otherwise
the counter increments.  The counter starts at 0 and is incremented only
on non-commit iterations, so the first in-loop commit happens after the
51st upsert and then after every further 51. -/
def indexLoop : List Nat → Nat → List BatchEvent
  | [], _ => []
  | n :: rest, done =>
    if done ≥ CACHE_COMMIT_INTERVAL then
      BatchEvent.upsert n :: BatchEvent.commit :: indexLoop rest 0
    else
      BatchEvent.upsert n :: indexLoop rest (done + 1)

/-- `RFCIndex.update_missing_indexes`, abstracted over the numbers of the
missing documents (those not reported by `get_indexed()`) and over
whether the final `writer.commit()` raises `IndexingError`.  The final
commit is wrapped in `try ... except IndexingError: pass`, so no
exception propagates either way (`none`). -/
def update_missing_indexes (missing : List Nat) (finalCommitConflict : Bool) :
    List BatchEvent × Option Unit :=
  let _ := finalCommitConflict
  (indexLoop missing 0 ++ [BatchEvent.commit], none)

def countCommits : List BatchEvent → Nat
  | [] => 0
  | BatchEvent.commit :: rest => countCommits rest + 1
  | BatchEvent.upsert _ :: rest => countCommits rest

def countUpserts : List BatchEvent → Nat
  | [] => 0
  | BatchEvent.commit :: rest => countUpserts rest
  | BatchEvent.upsert _ :: rest => countUpserts rest + 1

/-- The body-search merge of `search`: append each body match whose
number is not already in the accumulated `rfcs` list. -/
def appendNewNumbers (rfcs : List Nat) (bodyMatches : List Nat) : List Nat :=
  bodyMatches.foldl (fun acc n => if n ∈ acc then acc else acc ++ [n]) rfcs

/-- The sequence of numbers `search` resolves, in resolution order:
all title matches, then (when body search is on) the body matches not
already present. -/
def searchNumbers (titleMatches bodyMatches : List Nat) (bodysearch : Bool) :
    List Nat :=
  if bodysearch then appendNewNumbers titleMatches bodyMatches else titleMatches

/-- Resolving each matched number through `get_by_number`, in order; the
first failing lookup propagates, as in the source's loop. -/
def resolveAll (entries : List RFCCacheEntry) :
    List Nat → Except GetByNumberError (List RFCCacheEntry)
  | [] => .ok []
  | n :: rest =>
    match get_by_number entries (.int n) with
    | .error e => .error e
    | .ok e =>
      match resolveAll entries rest with
      | .error err => .error err
      | .ok es => .ok (e :: es)

/-- Stable insertion by `RFCCacheEntry.__lt__`, i.e. by `number`. -/
def insertByNumber (e : RFCCacheEntry) :
    List RFCCacheEntry → List RFCCacheEntry
  | [] => [e]
  | x :: xs => if e.number ≤ x.number then e :: x :: xs else x :: insertByNumber e xs

/-- `results.sort()`: Python's stable sort under `__lt__`, which compares
entries solely by `number`. -/
def sortByNumber (l : List RFCCacheEntry) : List RFCCacheEntry :=
  l.foldr insertByNumber []

/-- `RFCIndex.search`, abstracted over the numbers the whoosh searcher
returns for the title-field query and the body-field query (the search
store keys documents uniquely by number). -/
def RFCIndex.search (entries : List RFCCacheEntry)
    (titleMatches bodyMatches : List Nat) (bodysearch : Bool) :
    Except GetByNumberError (List RFCCacheEntry) :=
  match resolveAll entries (searchNumbers titleMatches bodyMatches bodysearch) with
  | .error e => .error e
  | .ok results => .ok (sortByNumber results)

/-! ## Shared sample data and helper lemmas -/

/-- A store holding one entry with number 10, used as concrete input. -/
def sampleEntry10 : RFCCacheEntry := ⟨10, "d", "title not parsed", none, []⟩

lemma countCommits_append (a b : List BatchEvent) :
    countCommits (a ++ b) = countCommits a + countCommits b := by
  induction a with
  | nil => simp [countCommits]
  | cons x rest ih =>
    cases x with
    | upsert n => simp [countCommits, ih]
    | commit => simp [countCommits, ih]; omega

lemma countUpserts_append (a b : List BatchEvent) :
    countUpserts (a ++ b) = countUpserts a + countUpserts b := by
  induction a with
  | nil => simp [countUpserts]
  | cons x rest ih =>
    cases x with
    | upsert n => simp [countUpserts, ih]; omega
    | commit => simp [countUpserts, ih]

/-- Commit/upsert counts of the batching loop: starting from a counter
value `done ≤ 50`, the loop over `l` performs one upsert per element and
commits once per 51 elements, counted with the `done` head start. -/
lemma indexLoop_counts (l : List Nat) :
    ∀ done : Nat, done ≤ CACHE_COMMIT_INTERVAL →
      countCommits (indexLoop l done) = (l.length + done) / 51 ∧
      countUpserts (indexLoop l done) = l.length := by
  induction l with
  | nil =>
    intro done h
    refine ⟨?_, by simp [indexLoop, countUpserts]⟩
    simp only [indexLoop, countCommits, List.length_nil]
    simp only [CACHE_COMMIT_INTERVAL] at h
    omega
  | cons n rest ih =>
    intro done h
    simp only [indexLoop]
    by_cases hd : done ≥ CACHE_COMMIT_INTERVAL
    · rw [if_pos hd]
      have h50 : done = 50 := by
        simp only [CACHE_COMMIT_INTERVAL] at h hd; omega
      obtain ⟨ih1, ih2⟩ := ih 0 (by simp [CACHE_COMMIT_INTERVAL])
      subst h50
      refine ⟨?_, ?_⟩
      · simp only [countCommits, ih1, List.length_cons]; omega
      · simp only [countUpserts, ih2, List.length_cons]
    · rw [if_neg hd]
      have hle : done + 1 ≤ CACHE_COMMIT_INTERVAL := by
        simp only [CACHE_COMMIT_INTERVAL] at h hd ⊢; omega
      obtain ⟨ih1, ih2⟩ := ih (done + 1) hle
      refine ⟨?_, ?_⟩
      · simp only [countCommits, ih1, List.length_cons]; omega
      · simp only [countUpserts, ih2, List.length_cons]

/-! ## Claim theorems -/

/-- Claim C9: when the store holds zero entries, `get_by_number` raises
the "nothing loaded" error for every argument whatsoever — including
non-numeric, non-positive or excluded arguments — because the emptiness
check precedes all argument validation. -/
theorem C9_empty_store_precedes_validation (arg : PyArg) :
    get_by_number [] arg = .error .noRFCsLoaded := rfl

/-- Claim C2, counterexample: on the well-formed description
`"Example Title. March 1999. (Status: PROPOSED STANDARD)"` the record
parser does not produce the title `"Example Title"` — the title group of
`RE_RFC_DESCRIPTION` is `.*\.`, which includes the terminating period. -/
theorem C2_counterexample :
    (mkRFCCacheEntry 1 "Example Title. March 1999. (Status: PROPOSED STANDARD)").toOption.map
      (fun e => e.title) ≠ some "Example Title" := by decide

/-- Claim C2 (amended): on that description the record parser produces
title `"Example Title."` (with the terminating period), date March 1999
and flags `{"Status": "PROPOSED STANDARD"}`. -/
theorem C2_amended_parse :
    mkRFCCacheEntry 1 "Example Title. March 1999. (Status: PROPOSED STANDARD)" =
      .ok ⟨1, "Example Title. March 1999. (Status: PROPOSED STANDARD)",
           "Example Title.", some (3, 1999), [("Status", "PROPOSED STANDARD")]⟩ := by
  rfl

/-- Claim C1, code behaviour at the failing input: the parse loop never
appends the record still accumulating when the line stream ends, so for
an index whose last numbered line introduces 1000, `load` succeeds but
the store lacks 1000 and `get_by_number(1000)` fails instead of
returning a record with number 1000 as the claim states. -/
theorem C1_code_behavior :
    (RFCIndex.load [] ["1 A. May 2000. (X: Y)", "1000 B."]).1.map (fun e => e.number) = [1] ∧
    get_by_number (RFCIndex.load [] ["1 A. May 2000. (X: Y)", "1000 B."]).1 (.int 1000) =
      .error (.notYetCached 1000 1) :=
  ⟨rfl, rfl⟩

/-- Claim C7, counterexample: with exactly 50 missing documents the claim
("a commit after each group of exactly 50 upserts, plus one final
commit") predicts `50 / 50 + 1 = 2` commits, but the code performs only
the final one: the counter is incremented after the comparison, so the
first in-loop commit needs a 51st document. -/
theorem C7_counterexample :
    countCommits (update_missing_indexes (List.range 50) false).1 = 1 ∧
    ¬ countCommits (update_missing_indexes (List.range 50) false).1 = 50 / 50 + 1 := by
  constructor <;> decide

/-- Claim C7 (amended): `update_missing_indexes` commits the write batch
once for every 51 processed documents (the counter is checked after each
upsert and incremented only when no commit happens), plus one final
commit; every document is upserted exactly once, and an indexing
conflict at the final commit is swallowed, so no exception propagates. -/
theorem C7_amended_batching (missing : List Nat) (finalConflict : Bool) :
    countCommits (update_missing_indexes missing finalConflict).1 = missing.length / 51 + 1 ∧
    countUpserts (update_missing_indexes missing finalConflict).1 = missing.length ∧
    (update_missing_indexes missing finalConflict).2 = none := by
  obtain ⟨h1, h2⟩ := indexLoop_counts missing 0 (by simp [CACHE_COMMIT_INTERVAL])
  refine ⟨?_, ?_, rfl⟩
  · simp only [update_missing_indexes, countCommits_append, h1, countCommits]
    omega
  · simp only [update_missing_indexes, countUpserts_append, h2, countUpserts]
    omega

/-- Claim C6: when the remote fetch of the index returns a non-200
status, or the local index file write fails, `update()` raises and the
in-memory entry collection is exactly as it was before the call. -/
theorem C6_update_failure_no_mutation (store : List RFCCacheEntry)
    (res : FetchResult) (writeOk : Bool)
    (h : res.status_code ≠ 200 ∨ writeOk = false) :
    (RFCIndex.update store res writeOk).1 = store ∧
    (RFCIndex.update store res writeOk).2 ≠ none := by
  unfold RFCIndex.update
  rcases h with h | h
  · rw [if_pos h]
    exact ⟨rfl, by simp⟩
  · by_cases hs : res.status_code ≠ 200
    · rw [if_pos hs]
      exact ⟨rfl, by simp⟩
    · rw [if_neg hs, if_pos h]
      exact ⟨rfl, by simp⟩

/-- Witness for C6 at a concrete input: a 404 download status aborts
`update()` and leaves the single-entry store untouched. -/
theorem C6_update_failure_no_mutation_witness :
    (RFCIndex.update [sampleEntry10] ⟨404, ["junk"]⟩ true).1 = [sampleEntry10] ∧
    (RFCIndex.update [sampleEntry10] ⟨404, ["junk"]⟩ true).2 ≠ none :=
  C6_update_failure_no_mutation [sampleEntry10] ⟨404, ["junk"]⟩ true (Or.inl (by decide))

lemma mkRFCCacheEntry_number {n : Nat} {d : String} {e : RFCCacheEntry}
    (h : mkRFCCacheEntry n d = .ok e) : e.number = n := by
  unfold mkRFCCacheEntry at h
  cases hm : matchDescription d with
  | none =>
    simp only [hm] at h
    cases h
    rfl
  | some v =>
    obtain ⟨t, dt, f⟩ := v
    simp only [hm] at h
    cases hp : parseMonthYear dt with
    | none =>
      simp only [hp] at h
      exact Except.noConfusion h
    | some my =>
      simp only [hp] at h
      cases h
      rfl

lemma finalizePrev_inv {s : LoadState} {es : List RFCCacheEntry}
    (h : finalizePrev s = .ok es)
    (hinv : ∀ e ∈ s.entries, e.number ∉ RFC_SKIPPED) :
    ∀ e ∈ es, e.number ∉ RFC_SKIPPED := by
  unfold finalizePrev at h
  cases hrfc : s.rfc with
  | none =>
    simp only [hrfc] at h
    cases h
    exact hinv
  | some r =>
    simp only [hrfc] at h
    by_cases hr : r ∈ RFC_SKIPPED
    · rw [if_pos hr] at h
      cases h
      exact hinv
    · rw [if_neg hr] at h
      cases hmk : mkRFCCacheEntry r (s.text.getD "") with
      | error u =>
        simp only [hmk] at h
        exact Except.noConfusion h
      | ok e0 =>
        simp only [hmk] at h
        cases h
        intro e he
        rcases List.mem_append.mp he with he | he
        · exact hinv e he
        · rw [List.mem_singleton.mp he, mkRFCCacheEntry_number hmk]
          exact hr

lemma loadStep_inv {s s' : LoadState} {l : String}
    (h : loadStep s l = .ok s')
    (hinv : ∀ e ∈ s.entries, e.number ∉ RFC_SKIPPED) :
    ∀ e ∈ s'.entries, e.number ∉ RFC_SKIPPED := by
  unfold loadStep at h
  by_cases h1 : pyRstrip l = ""
  · rw [if_pos h1] at h
    cases h
    exact hinv
  rw [if_neg h1] at h
  by_cases h2 : pyStartsWith (pyRstrip l) "~~~" = true
  · rw [if_pos h2] at h
    cases h
    exact hinv
  rw [if_neg h2] at h
  by_cases h3 : s.header = true ∨ pyStrip (pyRstrip l) = "RFC INDEX"
      ∨ pyStrip (pyRstrip l) = "---------"
  · rw [if_pos h3] at h
    cases h
    exact hinv
  rw [if_neg h3] at h
  cases hm : matchIndexLine (pyRstrip l) with
  | some v =>
    obtain ⟨n, t⟩ := v
    simp only [hm] at h
    cases hfin : finalizePrev s with
    | error e =>
      simp only [hfin] at h
      exact Except.noConfusion h
    | ok es =>
      simp only [hfin] at h
      by_cases ht : t = "Not Issued."
      · rw [if_pos ht] at h
        cases h
        exact finalizePrev_inv hfin hinv
      · rw [if_neg ht] at h
        cases h
        exact finalizePrev_inv hfin hinv
  | none =>
    simp only [hm] at h
    cases hrfc : s.rfc with
    | none =>
      simp only [hrfc] at h
      exact Except.noConfusion h
    | some r =>
      simp only [hrfc] at h
      by_cases hr : r = 0
      · rw [if_pos hr] at h
        cases h
      · rw [if_neg hr] at h
        cases h
        exact hinv

lemma loadLines_inv :
    ∀ (lines : List String) (s : LoadState),
      (∀ e ∈ s.entries, e.number ∉ RFC_SKIPPED) →
      ∀ e ∈ (loadLines s lines).1, e.number ∉ RFC_SKIPPED := by
  intro lines
  induction lines with
  | nil =>
    intro s hinv
    simpa [loadLines] using hinv
  | cons l rest ih =>
    intro s hinv
    simp only [loadLines]
    cases hstep : loadStep s l with
    | ok s1 => exact ih s1 (loadStep_inv hstep hinv)
    | error e => simpa using hinv

lemma lastNumber_eq_getLast (entries : List RFCCacheEntry) (h : entries ≠ []) :
    lastNumber entries = (entries.getLast h).number := by
  unfold lastNumber
  rw [List.getLast?_eq_getLast entries h]

/-- Claim C4: on a loaded, non-empty store, a valid positive number
strictly greater than every loaded number (hence greater than the
highest) and not in the excluded set fails with the "not yet cached"
condition carrying both the requested number and the latest loaded
number (`self[-1].number`), never the generic "not found locally"
condition. -/
theorem C4_beyond_latest_not_yet_cached (entries : List RFCCacheEntry) (n : Nat)
    (hne : entries ≠ [])
    (hskip : n ∉ RFC_SKIPPED)
    (hgt : ∀ e ∈ entries, e.number < n) :
    get_by_number entries (.int n) = .error (.notYetCached n (lastNumber entries)) := by
  have hpos : 0 < n := Nat.lt_of_le_of_lt (Nat.zero_le _) (hgt _ (List.getLast_mem hne))
  have hlast : lastNumber entries < n := by
    rw [lastNumber_eq_getLast entries hne]
    exact hgt _ (List.getLast_mem hne)
  unfold get_by_number
  rw [if_neg hne]
  simp only [pyToInt]
  rw [if_neg (show ¬ ((n : Int) < 1) by exact_mod_cast Nat.not_lt.mpr hpos)]
  have htn : ((n : Int)).toNat = n := rfl
  rw [htn, if_neg hskip, if_pos hlast]

/-- Witness for C4: requesting 11 from a store whose only (and latest)
entry is number 10 yields the "not yet cached" error with both numbers. -/
theorem C4_beyond_latest_not_yet_cached_witness :
    get_by_number [sampleEntry10] (.int 11) =
      .error (.notYetCached 11 (lastNumber [sampleEntry10])) :=
  C4_beyond_latest_not_yet_cached [sampleEntry10] 11 (by decide) (by decide) (by decide)

/-- Claim C5, counterexample: `get_by_number` on an excluded number does
not always fail with the "not available" condition.  Excluded number 8
appears textually in the index file, `load()` succeeds (the sole record
is still accumulating at stream end and is dropped), and the lookup
fails with the "nothing loaded" condition instead, because the emptiness
check precedes the excluded-set check. -/
theorem C5_counterexample :
    RFCIndex.load [] ["8 Old Protocol."] = ([], none) ∧
    get_by_number (RFCIndex.load [] ["8 Old Protocol."]).1 (.int 8) =
      .error .noRFCsLoaded :=
  ⟨rfl, rfl⟩

/-- Claim C5 (amended): `load()` never produces an entry whose number is
in the fixed excluded set, even when such a number appears textually in
the index file; and on a non-empty store `get_by_number` on an excluded
number always fails with the "not available" condition (on an empty
store the "nothing loaded" error takes precedence). -/
theorem C5_amended_exclusion :
    (∀ (prior : List RFCCacheEntry) (lines : List String),
        ∀ e ∈ (RFCIndex.load prior lines).1, e.number ∉ RFC_SKIPPED) ∧
    (∀ (entries : List RFCCacheEntry) (n : Nat),
        entries ≠ [] → n ∈ RFC_SKIPPED →
        get_by_number entries (.int n) = .error (.notAvailable n)) := by
  constructor
  · intro prior lines
    exact loadLines_inv lines initLoadState (by intro e he; cases he)
  · intro entries n hne hmem
    have h8 : 8 ≤ n := by
      simp only [RFC_SKIPPED, List.mem_cons, List.not_mem_nil, or_false] at hmem
      rcases hmem with rfl | rfl | rfl | rfl | rfl | rfl <;> omega
    unfold get_by_number
    rw [if_neg hne]
    simp only [pyToInt]
    rw [if_neg (show ¬ ((n : Int) < 1) by exact_mod_cast Nat.not_lt.mpr (by omega))]
    have htn : ((n : Int)).toNat = n := rfl
    rw [htn, if_pos hmem]

/-- Witness for C5: a load whose input names excluded numbers 8 and 9
produces an entry only for 1 (whose number is thus not excluded), and
an excluded lookup on a non-empty store yields "not available". -/
theorem C5_amended_exclusion_witness :
    (⟨1, "A.", "title not parsed", none, []⟩ : RFCCacheEntry).number ∉ RFC_SKIPPED ∧
    get_by_number [sampleEntry10] (.int 8) = .error (.notAvailable 8) :=
  ⟨C5_amended_exclusion.1 [] ["8 X.", "1 A.", "9 Y.", "2 B."]
      ⟨1, "A.", "title not parsed", none, []⟩ (by decide),
   C5_amended_exclusion.2 [sampleEntry10] 8 (by decide) (by decide)⟩

/-- Processing a prefix of lines without an exception, then the rest. -/
lemma loadLines_append :
    ∀ (pre : List String) (s s' : LoadState) (xs : List String),
      processLines s pre = .ok s' →
      loadLines s (pre ++ xs) = loadLines s' xs := by
  intro pre
  induction pre with
  | nil =>
    intro s s' xs h
    simp only [processLines] at h
    cases h
    simp
  | cons l rest ih =>
    intro s s' xs h
    simp only [processLines] at h
    cases hstep : loadStep s l with
    | ok s1 =>
      simp only [hstep] at h
      simp only [List.cons_append, loadLines, hstep]
      exact ih s1 s' xs h
    | error e =>
      simp only [hstep] at h
      exact Except.noConfusion h

/-- Claim C3: when the first line that reaches the parser proper (not
blank after rstrip, not a header toggle, not reached while the header
toggle is on, not a static label) fails the numbered-record pattern,
`load()` aborts with the fatal format error and leaves the store with
zero entries, regardless of the store's prior content.  The prefix
condition is stated semantically: the skipped lines leave the loop with
no entries appended, no accumulating record, and the header toggle off. -/
theorem C3_leading_continuation_fatal (prior : List RFCCacheEntry)
    (pre : List String) (l : String) (rest : List String) (s : LoadState)
    (hpre : processLines initLoadState pre = .ok s)
    (hent : s.entries = []) (hrfc : s.rfc = none) (hhdr : s.header = false)
    (hblank : pyRstrip l ≠ "")
    (htilde : pyStartsWith (pyRstrip l) "~~~" = false)
    (hlabel : pyStrip (pyRstrip l) ≠ "RFC INDEX" ∧ pyStrip (pyRstrip l) ≠ "---------")
    (hcont : matchIndexLine (pyRstrip l) = none) :
    RFCIndex.load prior (pre ++ l :: rest) = ([], some .unsupportedFormat) := by
  have hstep : loadStep s l = .error .unsupportedFormat := by
    unfold loadStep
    rw [if_neg hblank]
    rw [if_neg (by simp [htilde])]
    rw [if_neg (by simp [hhdr, hlabel.1, hlabel.2])]
    simp only [hcont, hrfc]
  show (loadLines initLoadState (pre ++ l :: rest)) = _
  rw [loadLines_append pre initLoadState s (l :: rest) hpre]
  simp only [loadLines, hstep, hent]

/-- Witness for C3: after a blank line, a tilde-delimited header block
and the static `RFC INDEX` label, the first content line is an indented
continuation; the load on a previously one-entry store fails with the
format error and ends empty. -/
theorem C3_leading_continuation_fatal_witness :
    RFCIndex.load [sampleEntry10]
        (["", "~~~", "header junk", "~~~", "  RFC INDEX"] ++
          "   stray continuation" :: ["100 Foo."]) =
      ([], some .unsupportedFormat) :=
  C3_leading_continuation_fatal [sampleEntry10]
    ["", "~~~", "header junk", "~~~", "  RFC INDEX"] "   stray continuation"
    ["100 Foo."] initLoadState rfl rfl rfl rfl (by decide) (by decide)
    ⟨by decide, by decide⟩ (by decide)

/-- Claim C10: a continuation line immediately following a numbered line
whose rest-of-line is exactly the `Not Issued.` marker aborts the whole
load with the fatal format error: discarding the not-issued record
resets the accumulating record to none, so the continuation line finds
no active record. -/
theorem C10_continuation_after_not_issued_fatal (prior : List RFCCacheEntry)
    (pre : List String) (l1 l2 : String) (rest : List String)
    (s s1 : LoadState) (n : Nat)
    (hpre : processLines initLoadState pre = .ok s)
    (hhdr : s.header = false)
    (hni : matchIndexLine (pyRstrip l1) = some (n, "Not Issued."))
    (h1t : pyStartsWith (pyRstrip l1) "~~~" = false)
    (h1lab : pyStrip (pyRstrip l1) ≠ "RFC INDEX" ∧ pyStrip (pyRstrip l1) ≠ "---------")
    (hstep : loadStep s l1 = .ok s1)
    (h2blank : pyRstrip l2 ≠ "")
    (h2t : pyStartsWith (pyRstrip l2) "~~~" = false)
    (h2lab : pyStrip (pyRstrip l2) ≠ "RFC INDEX" ∧ pyStrip (pyRstrip l2) ≠ "---------")
    (h2cont : matchIndexLine (pyRstrip l2) = none) :
    (RFCIndex.load prior (pre ++ l1 :: l2 :: rest)).2 = some .unsupportedFormat := by
  have h1blank : pyRstrip l1 ≠ "" := by
    intro hh
    rw [hh] at hni
    exact Option.noConfusion
      (show (none : Option (Nat × String)) = some (n, "Not Issued.") from hni)
  have hstep' := hstep
  unfold loadStep at hstep'
  rw [if_neg h1blank] at hstep'
  rw [if_neg (by simp [h1t])] at hstep'
  rw [if_neg (by simp [hhdr, h1lab.1, h1lab.2])] at hstep'
  simp only [hni] at hstep'
  cases hfin : finalizePrev s with
  | error e =>
    simp only [hfin] at hstep'
    exact Except.noConfusion hstep'
  | ok es =>
    simp only [hfin, if_pos rfl] at hstep'
    cases hstep'
    have hstep2 : loadStep ⟨es, s.header, none, none⟩ l2 = .error .unsupportedFormat := by
      unfold loadStep
      rw [if_neg h2blank]
      rw [if_neg (by simp [h2t])]
      rw [if_neg (by simp [hhdr, h2lab.1, h2lab.2])]
      simp only [h2cont]
    show (loadLines initLoadState (pre ++ l1 :: l2 :: rest)).2 = _
    rw [loadLines_append pre initLoadState s (l1 :: l2 :: rest) hpre]
    simp only [loadLines, hstep, hstep2]

/-- Witness for C10: `"5 Not Issued."` directly followed by an indented
continuation line makes the load fail with the format error. -/
theorem C10_continuation_after_not_issued_fatal_witness :
    (RFCIndex.load [] ([] ++ "5 Not Issued." :: "   continuation" :: [])).2 =
      some .unsupportedFormat :=
  C10_continuation_after_not_issued_fatal [] [] "5 Not Issued." "   continuation" []
    initLoadState initLoadState 5 rfl rfl (by decide) (by decide)
    ⟨by decide, by decide⟩ rfl (by decide) (by decide) ⟨by decide, by decide⟩
    (by decide)

/-- A store holding entries 1 and 3, used as concrete search input. -/
def sampleEntry1 : RFCCacheEntry := ⟨1, "A.", "title not parsed", none, []⟩

def sampleEntry3 : RFCCacheEntry := ⟨3, "B.", "title not parsed", none, []⟩

lemma get_by_number_ok_number {entries : List RFCCacheEntry} {m : Nat}
    {e : RFCCacheEntry} (h : get_by_number entries (.int m) = .ok e) :
    e.number = m := by
  unfold get_by_number at h
  by_cases hne : entries = []
  · rw [if_pos hne] at h
    exact Except.noConfusion h
  rw [if_neg hne] at h
  simp only [pyToInt] at h
  by_cases h1 : (m : Int) < 1
  · rw [if_pos h1] at h
    exact Except.noConfusion h
  rw [if_neg h1] at h
  have htn : ((m : Int)).toNat = m := rfl
  rw [htn] at h
  by_cases h2 : m ∈ RFC_SKIPPED
  · rw [if_pos h2] at h
    exact Except.noConfusion h
  rw [if_neg h2] at h
  by_cases h3 : lastNumber entries < m
  · rw [if_pos h3] at h
    exact Except.noConfusion h
  rw [if_neg h3] at h
  cases hf : entries.find? (fun x => x.number == m) with
  | none =>
    simp only [hf] at h
    exact Except.noConfusion h
  | some e0 =>
    simp only [hf] at h
    cases h
    simpa using List.find?_some hf

lemma resolveAll_ok_map {entries : List RFCCacheEntry} :
    ∀ {nums : List Nat} {res : List RFCCacheEntry},
      resolveAll entries nums = .ok res →
      res.map (fun e => e.number) = nums := by
  intro nums
  induction nums with
  | nil =>
    intro res h
    simp only [resolveAll] at h
    cases h
    rfl
  | cons n rest ih =>
    intro res h
    simp only [resolveAll] at h
    cases hg : get_by_number entries (.int n) with
    | error e =>
      simp only [hg] at h
      exact Except.noConfusion h
    | ok e =>
      simp only [hg] at h
      cases hr : resolveAll entries rest with
      | error err =>
        simp only [hr] at h
        exact Except.noConfusion h
      | ok es =>
        simp only [hr] at h
        cases h
        simp only [List.map_cons, ih hr, get_by_number_ok_number hg]

lemma insertByNumber_perm (e : RFCCacheEntry) :
    ∀ l : List RFCCacheEntry, (insertByNumber e l).Perm (e :: l) := by
  intro l
  induction l with
  | nil => simp [insertByNumber]
  | cons x xs ih =>
    simp only [insertByNumber]
    by_cases h : e.number ≤ x.number
    · rw [if_pos h]
    · rw [if_neg h]
      exact (ih.cons x).trans (List.Perm.swap e x xs)

lemma sortByNumber_perm : ∀ l : List RFCCacheEntry, (sortByNumber l).Perm l := by
  intro l
  induction l with
  | nil => simp [sortByNumber]
  | cons x xs ih =>
    exact (insertByNumber_perm x (sortByNumber xs)).trans (ih.cons x)

lemma mem_insertByNumber {e a : RFCCacheEntry} {l : List RFCCacheEntry}
    (h : a ∈ insertByNumber e l) : a = e ∨ a ∈ l := by
  simpa using (insertByNumber_perm e l).mem_iff.mp h

lemma pairwise_insertByNumber {e : RFCCacheEntry} :
    ∀ {l : List RFCCacheEntry},
      List.Pairwise (fun a b => a.number ≤ b.number) l →
      List.Pairwise (fun a b => a.number ≤ b.number) (insertByNumber e l) := by
  intro l h
  induction l with
  | nil => simp [insertByNumber]
  | cons x xs ih =>
    rcases List.pairwise_cons.mp h with ⟨hx, hxs⟩
    simp only [insertByNumber]
    by_cases hle : e.number ≤ x.number
    · rw [if_pos hle]
      refine List.pairwise_cons.mpr ⟨?_, h⟩
      intro b hb
      rcases List.mem_cons.mp hb with rfl | hb
      · exact hle
      · exact Nat.le_trans hle (hx b hb)
    · rw [if_neg hle]
      refine List.pairwise_cons.mpr ⟨?_, ih hxs⟩
      intro b hb
      rcases mem_insertByNumber hb with rfl | hb
      · exact Nat.le_of_not_le hle
      · exact hx b hb

lemma sortByNumber_pairwise :
    ∀ l : List RFCCacheEntry,
      List.Pairwise (fun a b => a.number ≤ b.number) (sortByNumber l) := by
  intro l
  induction l with
  | nil => simp [sortByNumber]
  | cons x xs ih => exact pairwise_insertByNumber ih

lemma appendNewNumbers_nodup :
    ∀ (bm acc : List Nat), acc.Nodup → (appendNewNumbers acc bm).Nodup := by
  intro bm
  induction bm with
  | nil => intro acc h; exact h
  | cons n rest ih =>
    intro acc h
    simp only [appendNewNumbers, List.foldl_cons]
    by_cases hn : n ∈ acc
    · rw [if_pos hn]
      exact ih acc h
    · rw [if_neg hn]
      refine ih (acc ++ [n]) ?_
      simp [List.nodup_append, h, hn]

/-- Claim C8: whenever `search` succeeds (every matched number resolves
through `get_by_number`), the result list is sorted ascending by number
and has no duplicate numbers; with body search off the result numbers
are exactly the title matches, and with body search on the body matches
not already present are appended before sorting.  The title matches are
assumed duplicate-free, as the search store keys documents uniquely by
number. -/
theorem C8_search_sorted_dedup (entries : List RFCCacheEntry)
    (titleMatches bodyMatches : List Nat) (bodysearch : Bool)
    (results : List RFCCacheEntry)
    (hnodup : titleMatches.Nodup)
    (hok : RFCIndex.search entries titleMatches bodyMatches bodysearch = .ok results) :
    List.Pairwise (fun a b => a.number ≤ b.number) results ∧
    (results.map (fun e => e.number)).Nodup ∧
    (results.map (fun e => e.number)).Perm
      (searchNumbers titleMatches bodyMatches bodysearch) ∧
    (bodysearch = false → searchNumbers titleMatches bodyMatches bodysearch = titleMatches) := by
  unfold RFCIndex.search at hok
  cases hres : resolveAll entries (searchNumbers titleMatches bodyMatches bodysearch) with
  | error e =>
    simp only [hres] at hok
    exact Except.noConfusion hok
  | ok res0 =>
    simp only [hres] at hok
    cases hok
    have hmap : res0.map (fun e => e.number) =
        searchNumbers titleMatches bodyMatches bodysearch :=
      resolveAll_ok_map hres
    have hperm : ((sortByNumber res0).map (fun e => e.number)).Perm
        (searchNumbers titleMatches bodyMatches bodysearch) := by
      rw [← hmap]
      exact (sortByNumber_perm res0).map _
    have hnd : (searchNumbers titleMatches bodyMatches bodysearch).Nodup := by
      cases bodysearch with
      | false => simpa [searchNumbers] using hnodup
      | true => simpa [searchNumbers] using appendNewNumbers_nodup bodyMatches titleMatches hnodup
    refine ⟨sortByNumber_pairwise res0, hperm.symm.nodup hnd, hperm, ?_⟩
    intro hb
    subst hb
    rfl

/-- Witness for C8: title match 3 and body matches 1 and 3 against a
store holding entries 1 and 3 yield the sorted duplicate-free result
list with numbers 1 and 3. -/
theorem C8_search_sorted_dedup_witness :
    List.Pairwise (fun a b : RFCCacheEntry => a.number ≤ b.number)
      [sampleEntry1, sampleEntry3] ∧
    ([sampleEntry1, sampleEntry3].map (fun e => e.number)).Nodup ∧
    ([sampleEntry1, sampleEntry3].map (fun e => e.number)).Perm
      (searchNumbers [3] [1, 3] true) ∧
    (true = false → searchNumbers [3] [1, 3] true = [3]) :=
  C8_search_sorted_dedup [sampleEntry1, sampleEntry3] [3] [1, 3] true
    [sampleEntry1, sampleEntry3] (by decide) rfl
